import Mathlib

/-!
Verification of the high-level GSSAPI name wrapper (`gssapi/names.py`).

The wrapper delegates every operation to the raw name primitives of the
underlying library (`gssapi.raw.names`), which is an external collaborator
here.  The raw layer is therefore modelled from the spec (section 6) as a
state-threaded interface: a heap of allocated raw name objects plus a log
of the primitive calls made, so that claims about allocation ("a new
handle"), frame conditions ("the original is unmodified") and delegation
("no underlying call made", "re-queried on every read") are statable.
The wrapper functions themselves are translated directly from the source.
-/

namespace Gssapi

/-- Byte strings are sequences of byte values. -/
abbrev Bytes := List Nat

/-- Modelled from the spec (section 7): the error taxonomy of the underlying
library, plus the host language's unicode conversion error. -/
inductive Err
  | importErr
  | exportErr
  | mechErr
  | nameTypeErr
  | unicodeDecodeErr
deriving DecidableEq

/-- Modelled from the spec (section 3): the underlying raw name object, an
opaque pairing of display bytes with a name-type tag. -/
structure RawName where
  name : Bytes
  name_type : Nat
deriving DecidableEq

/-- Modelled from the spec: a record of one call to a raw primitive, used to
observe which underlying calls an operation makes. -/
inductive RawCall
  | importCall (b : Option Bytes) (nt : Option Nat)
  | displayCall (h : Nat) (with_type : Bool)
  | compareCall (h1 h2 : Nat)
  | exportCall (h : Nat)
  | canonicalizeCall (h : Nat) (mech : Nat)
  | duplicateCall (h : Nat)
deriving DecidableEq

/-- Modelled from the spec: the state of the underlying library — the heap of
allocated raw name objects (a handle is an index into it) and the call log. -/
structure RawState where
  heap : List RawName
  log : List RawCall
deriving DecidableEq

/-- Dereference a handle. -/
def RawState.lookup (s : RawState) (h : Nat) : Option RawName := s.heap[h]?

/-- Allocate a fresh raw name object, returning the new state and its handle. -/
def RawState.alloc (s : RawState) (r : RawName) : RawState × Nat :=
  ({ s with heap := s.heap ++ [r] }, s.heap.length)

/-- Append one call to the log. -/
def RawState.logged (s : RawState) (c : RawCall) : RawState :=
  { s with log := s.log ++ [c] }

/-- Modelled from the spec: the reserved sentinel name-type for exported-name
tokens (`NameType.export`). -/
def exportNT : Nat := 0

/-- A Kerberos-principal style name-type. -/
def kerberosNT : Nat := 1

/-- A host-based-service style name-type. -/
def hostbasedNT : Nat := 2

/-- Modelled from the spec: the name-types the underlying library recognizes. -/
def supportedNameType (nt : Nat) : Bool := nt ≤ 2

/-- Modelled from the spec: whether the mechanism supports export for a
name of this name-type (section 4.1, `ExportError` case). -/
def exportSupported (nt : Nat) : Bool := nt ≤ 1

/-- Modelled from the spec: the mechanisms able to canonicalize. -/
def supportedMech (m : Nat) : Bool := m = 1

/-- Modelled from the spec: the canonical name-type a mechanism produces. -/
def mechCanonNT (m : Nat) : Nat := m

/-- Modelled from the spec: the default name-type used when none is given. -/
def defaultNT : Nat := hostbasedNT

/-- Modelled from the spec: `importName(bytes, name_type) -> handle`, failing
with a mechanism-defined error on malformed input or an unsupported
name-type; under the exported-name sentinel type it decodes a token
previously produced by `exportName`. -/
def importName (s : RawState) (b : Option Bytes) (nt : Option Nat) :
    Except Err (RawState × Nat) :=
  let s1 := s.logged (RawCall.importCall b nt)
  match b with
  | none => .error .importErr
  | some bs =>
    if nt = some exportNT then
      match bs with
      | [] => .error .importErr
      | t :: rest =>
        if supportedNameType t then .ok (s1.alloc ⟨rest, t⟩)
        else .error .importErr
    else
      let t := nt.getD defaultNT
      if supportedNameType t then
        if bs.isEmpty then .error .importErr else .ok (s1.alloc ⟨bs, t⟩)
      else .error .nameTypeErr

/-- The result of a display call: the display bytes and, when requested, the
name-type tag. -/
structure DisplayResult where
  name : Bytes
  name_type : Option Nat
deriving DecidableEq

/-- Modelled from the spec: `displayName(handle, name_type) -> (bytes, name_type?)`. -/
def displayName (s : RawState) (h : Nat) (with_type : Bool) :
    Except Err (RawState × DisplayResult) :=
  let s1 := s.logged (RawCall.displayCall h with_type)
  match s.lookup h with
  | none => .error .importErr
  | some r => .ok (s1, ⟨r.name, if with_type then some r.name_type else none⟩)

/-- Modelled from the spec: `compareName(handle, handle) -> bool`; equality of
the denoted principals, here the stored raw name objects. -/
def compareName (s : RawState) (h1 h2 : Nat) : RawState × Bool :=
  (s.logged (RawCall.compareCall h1 h2), decide (s.lookup h1 = s.lookup h2))

/-- Modelled from the spec: `exportName(handle) -> bytes`, producing a
flattened token (here: name-type tag followed by the display bytes), failing
when the mechanism does not support export for this name-type. -/
def exportName (s : RawState) (h : Nat) : Except Err (RawState × Bytes) :=
  let s1 := s.logged (RawCall.exportCall h)
  match s.lookup h with
  | none => .error .importErr
  | some r =>
    if exportSupported r.name_type then .ok (s1, r.name_type :: r.name)
    else .error .exportErr

/-- Modelled from the spec: `canonicalizeName(handle, mech) -> handle`,
allocating the canonical form of the name under that mechanism. -/
def canonicalizeName (s : RawState) (h : Nat) (mech : Nat) :
    Except Err (RawState × Nat) :=
  let s1 := s.logged (RawCall.canonicalizeCall h mech)
  match s.lookup h with
  | none => .error .importErr
  | some r =>
    if supportedMech mech then .ok (s1.alloc ⟨r.name, mechCanonNT mech⟩)
    else .error .mechErr

/-- Modelled from the spec: `duplicateName(handle) -> handle`, allocating an
independently owned copy. -/
def duplicateName (s : RawState) (h : Nat) : Except Err (RawState × Nat) :=
  let s1 := s.logged (RawCall.duplicateCall h)
  match s.lookup h with
  | none => .error .importErr
  | some r => .ok (s1.alloc r)

/-- Modelled from the spec (section 5): the process-wide configuration read by
string conversion — the text encoding (`_utils._get_encoding`). -/
structure Config where
  encoding : Nat
deriving DecidableEq

/-- Modelled from the spec: decoding bytes into text under the process-wide
encoding (`bytes.decode`). -/
def decodeBytes (enc : Nat) (b : Bytes) : String :=
  String.mk (b.map Char.ofNat)

/-- Modelled from the spec: encoding text into bytes (`unicode.encode`). -/
def encodeText (enc : Nat) (t : String) : Bytes :=
  t.data.map Char.toNat

/-- Modelled from the spec's open question on the Python-2 string duality:
`str.encode(enc)` on a Python-2 byte string first implicitly decodes the
bytes as ASCII and then encodes the result, so it fails with a unicode
decode error whenever a byte is outside the ASCII range. -/
def py2BytesEncode (enc : Nat) (b : Bytes) : Except Err Bytes :=
  if b.all (fun x => x < 128) then
    .ok (encodeText enc (String.mk (b.map Char.ofNat)))
  else .error .unicodeDecodeErr

/-- The high-level name handle of `gssapi/names.py`.  Its slot declaration is
empty (`__slots__ = ()`), so its only state is the raw handle it wraps. -/
structure Name where
  raw : Nat
deriving DecidableEq

/-- The `base` argument of `Name.__new__`: omitted (`None`), an existing raw
name handle, or display bytes to import. -/
inductive BaseArg
  | absent
  | handle (h : Nat)
  | value (b : Bytes)
deriving DecidableEq

/-- `Name.__new__`: a supplied token is imported under the exported-name
sentinel type; otherwise a raw-handle base is wrapped directly with no
underlying call; otherwise the base bytes and name_type go to the import
primitive. -/
def Name.new (s : RawState) (base : BaseArg) (name_type : Option Nat)
    (token : Option Bytes) : Except Err (RawState × Name) :=
  match token with
  | some t => (importName s (some t) (some exportNT)).map (fun p => (p.1, ⟨p.2⟩))
  | none =>
    match base with
    | .handle h => .ok (s, ⟨h⟩)
    | .absent => (importName s none name_type).map (fun p => (p.1, ⟨p.2⟩))
    | .value b => (importName s (some b) name_type).map (fun p => (p.1, ⟨p.2⟩))

/-- `Name.__bytes__`: display with name-type reporting disabled and return
the display bytes. -/
def Name.bytes_ (s : RawState) (h : Name) : Except Err (RawState × Bytes) :=
  (displayName s h.raw false).map (fun p => (p.1, p.2.name))

/-- A Python string value: a byte string or a text (unicode) string. -/
inductive PyStr
  | bs (b : Bytes)
  | text (t : String)
deriving DecidableEq

/-- `Name.__str__`: on Python 3 (`issubclass(str, six.text_type)`), decode the
display bytes with the process-wide encoding; on Python 2, return the byte
string unchanged. -/
def Name.str (py3 : Bool) (cfg : Config) (s : RawState) (h : Name) :
    Except Err (RawState × PyStr) :=
  (Name.bytes_ s h).map (fun p =>
    (p.1, if py3 then .text (decodeBytes cfg.encoding p.2) else .bs p.2))

/-- `Name.__unicode__` (the Python-2 unicode path): the source calls
`self.__bytes__().encode(...)` — an encode, not a decode, of the display
bytes. -/
def Name.unicode_ (cfg : Config) (s : RawState) (h : Name) :
    Except Err (RawState × PyStr) :=
  (Name.bytes_ s h).bind (fun p =>
    (py2BytesEncode cfg.encoding p.2).map (fun b => (p.1, PyStr.bs b)))

/-- The `Name.name_type` property: display with name-type reporting enabled
and return only the type component. -/
def Name.name_type (s : RawState) (h : Name) : Except Err (RawState × Nat) :=
  (displayName s h.raw true).map (fun p => (p.1, p.2.name_type.getD 0))

/-- The result of a Python rich comparison: a boolean, or the
`NotImplemented` sentinel meaning "not comparable here". -/
inductive EqResult
  | bool (b : Bool)
  | notImpl
deriving DecidableEq

/-- A Python comparison argument: a recognized raw name handle, or any other
value. -/
inductive PyVal
  | name (h : Name)
  | other (v : Nat)
deriving DecidableEq

/-- `Name.__eq__`: `NotImplemented` when the argument is not a raw name
handle, otherwise the verdict of the comparison primitive. -/
def Name.eq (s : RawState) (h : Name) (other : PyVal) : RawState × EqResult :=
  match other with
  | .other _ => (s, .notImpl)
  | .name o =>
    let p := compareName s h.raw o.raw
    (p.1, .bool p.2)

/-- Python truthiness negation `not x`: the `NotImplemented` sentinel is
truthy, so `not NotImplemented` evaluates to `False`. -/
def pyNot : EqResult → Bool
  | .bool b => !b
  | .notImpl => false

/-- `Name.__ne__`: literally `not self.__eq__(other)`. -/
def Name.ne (s : RawState) (h : Name) (other : PyVal) : RawState × EqResult :=
  let p := Name.eq s h other
  (p.1, .bool (pyNot p.2))

/-- `Name.__repr__`: a constructor-like debug string built from a display
call with name-type reporting enabled. -/
def Name.repr (s : RawState) (h : Name) : Except Err (RawState × String) :=
  (displayName s h.raw true).map (fun p =>
    (p.1, "Name(" ++ String.mk (p.2.name.map Char.ofNat) ++ ", " ++
      toString (p.2.name_type.getD 0) ++ ")"))

/-- `Name.export`: delegate to the export primitive. -/
def Name.export_ (s : RawState) (h : Name) : Except Err (RawState × Bytes) :=
  exportName s h.raw

/-- `Name.canonicalize`: canonicalize under the mechanism, then wrap the
resulting raw handle through the constructor (raw-handle mode). -/
def Name.canonicalize (s : RawState) (h : Name) (mech : Nat) :
    Except Err (RawState × Name) :=
  (canonicalizeName s h.raw mech).bind (fun p =>
    Name.new p.1 (.handle p.2) none none)

/-- `Name.__copy__`: duplicate, then wrap through the constructor. -/
def Name.copy (s : RawState) (h : Name) : Except Err (RawState × Name) :=
  (duplicateName s h.raw).bind (fun p => Name.new p.1 (.handle p.2) none none)

/-- `Name.__deepcopy__` (the memo argument is ignored by the source):
duplicate, then wrap through the constructor. -/
def Name.deepcopy (s : RawState) (h : Name) (memo : Nat) :
    Except Err (RawState × Name) :=
  (duplicateName s h.raw).bind (fun p => Name.new p.1 (.handle p.2) none none)

/-- A concrete one-name state used by the concrete theorems: a Kerberos
principal with display bytes "user". -/
def s0 : RawState := ⟨[⟨[117, 115, 101, 114], kerberosNT⟩], []⟩

/-- The handle of the single name allocated in `s0`. -/
def h0 : Name := ⟨0⟩

/-- A state whose single name displays as the UTF-8 bytes of an accented
character (non-ASCII). -/
def sAccent : RawState := ⟨[⟨[195, 169], kerberosNT⟩], []⟩

/-- A concrete configuration. -/
def utf8 : Config := ⟨0⟩

/-- A valid handle is an index into the heap. -/
theorem lookup_lt {s : RawState} {i : Nat} {r : RawName}
    (h : s.lookup i = some r) : i < s.heap.length :=
  (List.getElem?_eq_some_iff.mp h).1

/-- Extending the heap by one object preserves every existing lookup. -/
theorem lookup_concat {s : RawState} {i : Nat} {r : RawName} (x : RawName)
    (lg : List RawCall) (h : s.lookup i = some r) :
    RawState.lookup ⟨s.heap ++ [x], lg⟩ i = some r := by
  show (s.heap ++ [x])[i]? = some r
  rw [List.getElem?_append_left (lookup_lt h)]
  exact h

/-- The freshly allocated object sits at the old heap length. -/
theorem lookup_concat_fresh (s : RawState) (x : RawName) (lg : List RawCall) :
    RawState.lookup ⟨s.heap ++ [x], lg⟩ s.heap.length = some x := by
  show (s.heap ++ [x])[s.heap.length]? = some x
  exact List.getElem?_concat_length _ _

/-- Logging a call does not change any lookup. -/
theorem lookup_logged (s : RawState) (c : RawCall) (i : Nat) :
    (s.logged c).lookup i = s.lookup i := rfl

/-- Computation of a successful display call. -/
theorem displayName_ok {s : RawState} {h : Nat} {r : RawName}
    (hl : s.lookup h = some r) (wt : Bool) :
    displayName s h wt = .ok (s.logged (RawCall.displayCall h wt),
      ⟨r.name, if wt then some r.name_type else none⟩) := by
  unfold displayName
  rw [hl]

/-- Computation of a successful export call. -/
theorem exportName_ok {s : RawState} {h : Nat} {r : RawName}
    (hl : s.lookup h = some r) (he : exportSupported r.name_type = true) :
    exportName s h = .ok (s.logged (RawCall.exportCall h),
      r.name_type :: r.name) := by
  unfold exportName
  rw [hl]
  simp [he]

/-- Computation of a successful token import. -/
theorem importName_token_ok {s : RawState} {t : Nat} {rest : Bytes}
    (hsupp : supportedNameType t = true) :
    importName s (some (t :: rest)) (some exportNT) =
      .ok (⟨s.heap ++ [⟨rest, t⟩],
        s.log ++ [RawCall.importCall (some (t :: rest)) (some exportNT)]⟩,
        s.heap.length) := by
  simp [importName, hsupp, RawState.logged, RawState.alloc]

/-- Computation of a successful duplication call. -/
theorem duplicateName_ok {s : RawState} {h : Nat} {r : RawName}
    (hl : s.lookup h = some r) :
    duplicateName s h = .ok (⟨s.heap ++ [r],
      s.log ++ [RawCall.duplicateCall h]⟩, s.heap.length) := by
  simp [duplicateName, hl, RawState.logged, RawState.alloc]

/-- Computation of a successful canonicalization call. -/
theorem canonicalizeName_ok {s : RawState} {h : Nat} {r : RawName} {m : Nat}
    (hl : s.lookup h = some r) (hm : supportedMech m = true) :
    canonicalizeName s h m = .ok (⟨s.heap ++ [⟨r.name, mechCanonNT m⟩],
      s.log ++ [RawCall.canonicalizeCall h m]⟩, s.heap.length) := by
  simp [canonicalizeName, hl, hm, RawState.logged, RawState.alloc]

/-- The comparison verdict is equality of the two dereferenced objects. -/
theorem compareName_val (s : RawState) (h1 h2 : Nat) :
    (compareName s h1 h2).2 = decide (s.lookup h1 = s.lookup h2) := rfl

/-- Computation of the `name_type` property on a valid handle. -/
theorem name_type_val {s : RawState} {h : Name} {r : RawName}
    (hl : s.lookup h.raw = some r) :
    Name.name_type s h =
      .ok (s.logged (RawCall.displayCall h.raw true), r.name_type) := by
  simp [Name.name_type, displayName_ok hl, Except.map]

/-- Computation of `__bytes__` on a valid handle. -/
theorem bytes_val {s : RawState} {h : Name} {r : RawName}
    (hl : s.lookup h.raw = some r) :
    Name.bytes_ s h =
      .ok (s.logged (RawCall.displayCall h.raw false), r.name) := by
  simp [Name.bytes_, displayName_ok hl, Except.map]

/-- Export support is only defined for recognized name-types. -/
theorem supported_of_exportSupported {nt : Nat}
    (he : exportSupported nt = true) : supportedNameType nt = true := by
  simp [exportSupported] at he
  simp [supportedNameType]
  omega

/-- C1: `__eq__` returns exactly the comparison primitive's verdict on a name
handle, returns the `NotImplemented` sentinel (without raising) on any value
that is not a name handle, and `equals(h, h)` is true since the modelled
`compareName` is reflexive. -/
theorem C1_eq_delegates (s : RawState) (h o : Name) (v : Nat) :
    (Name.eq s h (.name o)).2 = .bool (compareName s h.raw o.raw).2 ∧
    (Name.eq s h (.other v)).2 = .notImpl ∧
    (Name.eq s h (.name h)).2 = .bool true := by
  refine ⟨rfl, rfl, ?_⟩
  simp [Name.eq, compareName]

/-- C2 counterexample: comparing against a non-name value, `__eq__` returns
the `NotImplemented` sentinel but `__ne__` returns `False` — the Python
truthiness negation of the truthy sentinel — and not the sentinel itself, so
the claim that inequality propagates the sentinel fails. -/
theorem C2_ne_sentinel_cex :
    (Name.ne s0 h0 (.other 5)).2 = .bool false ∧
    (Name.eq s0 h0 (.other 5)).2 = .notImpl ∧
    EqResult.bool false ≠ EqResult.notImpl :=
  ⟨rfl, rfl, by decide⟩

/-- C2 (amended): `__ne__` returns the Python truthiness negation of the
`__eq__` result — the boolean negation of the comparison verdict on name
handles, and `False` (not the sentinel) on non-name values, so the host
fallback does not apply to `!=`. -/
theorem C2_ne_truth_negation (s : RawState) (h o : Name) (v : Nat) :
    (Name.ne s h (.name o)).2 = .bool (!(compareName s h.raw o.raw).2) ∧
    (Name.ne s h (.other v)).2 = .bool false :=
  ⟨rfl, rfl⟩

/-- C3: at a handle whose display bytes are non-ASCII, the Python-3 `__str__`
path decodes them to text with the process-wide encoding as claimed, but the
Python-2 `__unicode__` path fails with a unicode decode error: the source
calls `.encode` on the display bytes (triggering an implicit ASCII decode)
instead of decoding them. -/
theorem C3_unicode_encodes_not_decodes :
    Name.str true utf8 sAccent h0 =
      .ok (sAccent.logged (RawCall.displayCall 0 false),
        .text (decodeBytes utf8.encoding [195, 169])) ∧
    Name.unicode_ utf8 sAccent h0 = .error .unicodeDecodeErr :=
  ⟨rfl, rfl⟩

/-- C4 counterexample: supplying arguments for two modes at once (base bytes
and a token) is not rejected — construction succeeds, and the token mode
silently wins: the result wraps the name imported from the token, not from
the base bytes. -/
theorem C4_no_rejection_cex :
    Name.new s0 (.value [104, 105]) (some kerberosNT) (some [kerberosNT, 117]) =
      .ok (⟨s0.heap ++ [⟨[117], kerberosNT⟩],
        [RawCall.importCall (some [kerberosNT, 117]) (some exportNT)]⟩, ⟨1⟩) :=
  rfl

/-- C4 (amended): construction checks the three modes in priority order with
no mutual-exclusivity rejection — a supplied token is imported under the
exported-name sentinel type regardless of the base argument, an existing raw
handle is wrapped directly with no underlying call and no state change, and
otherwise the base bytes (or an absent base) and the name_type go to
the underlying name-acquisition primitive. -/
theorem C4_priority_modes (s : RawState) (base : BaseArg) (nt : Option Nat)
    (t : Bytes) (hd : Nat) (b : Bytes) :
    Name.new s base nt (some t)
      = (importName s (some t) (some exportNT)).map (fun p => (p.1, Name.mk p.2)) ∧
    Name.new s (.handle hd) nt none = .ok (s, ⟨hd⟩) ∧
    Name.new s (.value b) nt none
      = (importName s (some b) nt).map (fun p => (p.1, Name.mk p.2)) ∧
    Name.new s .absent nt none
      = (importName s none nt).map (fun p => (p.1, Name.mk p.2)) := by
  refine ⟨?_, rfl, rfl, rfl⟩
  cases base <;> rfl

/-- C9: every error of the layer is an error of an underlying primitive,
propagated unchanged: token construction fails exactly when the import
primitive fails on the token (and with its error), bytes construction fails
exactly when the import primitive fails on the bytes, export and
canonicalization likewise; concretely a malformed (empty) token yields
the underlying library's `ImportError` and an unsupported name-type yields
its `NameTypeError`. -/
theorem C9_errors_propagate (s : RawState) (b : Bytes) (nt : Option Nat)
    (t : Bytes) (h : Name) (m : Nat) (e : Err) :
    (Name.new s (.value b) nt (some t) = .error e ↔
      importName s (some t) (some exportNT) = .error e) ∧
    (Name.new s (.value b) nt none = .error e ↔
      importName s (some b) nt = .error e) ∧
    (Name.export_ s h = .error e ↔ exportName s h.raw = .error e) ∧
    (Name.canonicalize s h m = .error e ↔
      canonicalizeName s h.raw m = .error e) ∧
    Name.new s .absent none (some []) = .error .importErr ∧
    Name.new s (.value [104, 105]) (some 5) none = .error .nameTypeErr := by
  refine ⟨?_, ?_, Iff.rfl, ?_, rfl, rfl⟩
  · show (importName s (some t) (some exportNT)).map _ = _ ↔ _
    cases importName s (some t) (some exportNT) <;>
      simp [Except.map]
  · show (importName s (some b) nt).map _ = _ ↔ _
    cases importName s (some b) nt <;> simp [Except.map]
  · show (canonicalizeName s h.raw m).bind _ = _ ↔ _
    cases canonicalizeName s h.raw m <;> simp [Except.bind, Name.new]

/-- C5: exporting a handle whose name-type supports export and constructing a
new handle from the resulting token (token mode, imported under the
exported-name sentinel type) yields a handle the comparison primitive
reports equal to the original. -/
theorem C5_export_roundtrip (s : RawState) (h : Name) (r : RawName)
    (hl : s.lookup h.raw = some r) (he : exportSupported r.name_type = true) :
    ∃ s1 tok s2 h2,
      Name.export_ s h = .ok (s1, tok) ∧
      Name.new s1 .absent none (some tok) = .ok (s2, h2) ∧
      (compareName s2 h2.raw h.raw).2 = true := by
  have hsupp : supportedNameType r.name_type = true :=
    supported_of_exportSupported he
  refine ⟨s.logged (RawCall.exportCall h.raw), r.name_type :: r.name,
    ⟨s.heap ++ [⟨r.name, r.name_type⟩],
      (s.log ++ [RawCall.exportCall h.raw]) ++
        [RawCall.importCall (some (r.name_type :: r.name)) (some exportNT)]⟩,
    ⟨s.heap.length⟩, exportName_ok hl he, ?_, ?_⟩
  · simp [Name.new, importName_token_ok hsupp, Except.map, RawState.logged]
  · rw [compareName_val]
    rw [show (⟨s.heap ++ [⟨r.name, r.name_type⟩], (s.log ++
      [RawCall.exportCall h.raw]) ++ [RawCall.importCall
      (some (r.name_type :: r.name)) (some exportNT)]⟩ : RawState).lookup
        s.heap.length = some ⟨r.name, r.name_type⟩ from
        lookup_concat_fresh s ⟨r.name, r.name_type⟩ _]
    rw [lookup_concat _ _ hl]
    simp

/-- C5 witness: the round trip at the concrete Kerberos principal of `s0`. -/
theorem C5_export_roundtrip_witness :
    ∃ s1 tok s2 h2,
      Name.export_ s0 h0 = .ok (s1, tok) ∧
      Name.new s1 .absent none (some tok) = .ok (s2, h2) ∧
      (compareName s2 h2.raw h0.raw).2 = true :=
  C5_export_roundtrip s0 h0 ⟨[117, 115, 101, 114], kerberosNT⟩ rfl rfl

/-- C6: canonicalization returns a new handle — a freshly allocated raw
handle, distinct from the original, wrapping the mechanism's canonical
form — and the original handle is unmodified: it still dereferences to the
same raw object, and its `name_type` and `__bytes__` observations are the
same after the call as before it. -/
theorem C6_canonicalize_fresh (s : RawState) (h : Name) (r : RawName)
    (m : Nat) (hl : s.lookup h.raw = some r) (hm : supportedMech m = true) :
    ∃ s2 h2,
      Name.canonicalize s h m = .ok (s2, h2) ∧
      h2.raw ≠ h.raw ∧
      s2.lookup h2.raw = some ⟨r.name, mechCanonNT m⟩ ∧
      s2.lookup h.raw = some r ∧
      (Name.name_type s2 h).map (fun p => p.2)
        = (Name.name_type s h).map (fun p => p.2) ∧
      (Name.bytes_ s2 h).map (fun p => p.2)
        = (Name.bytes_ s h).map (fun p => p.2) := by
  refine ⟨⟨s.heap ++ [⟨r.name, mechCanonNT m⟩],
    s.log ++ [RawCall.canonicalizeCall h.raw m]⟩, ⟨s.heap.length⟩,
    ?_, Ne.symm (Nat.ne_of_lt (lookup_lt hl)), lookup_concat_fresh s _ _,
    lookup_concat _ _ hl, ?_, ?_⟩
  · simp [Name.canonicalize, canonicalizeName_ok hl hm, Except.bind, Name.new]
  · rw [name_type_val hl, name_type_val (lookup_concat _ _ hl)]
    simp [Except.map]
  · rw [bytes_val hl, bytes_val (lookup_concat _ _ hl)]
    simp [Except.map]

/-- C6 witness: canonicalizing the concrete Kerberos principal of `s0`
under the supported mechanism. -/
theorem C6_canonicalize_fresh_witness :
    ∃ s2 h2,
      Name.canonicalize s0 h0 1 = .ok (s2, h2) ∧
      h2.raw ≠ h0.raw ∧
      s2.lookup h2.raw = some ⟨[117, 115, 101, 114], mechCanonNT 1⟩ ∧
      s2.lookup h0.raw = some ⟨[117, 115, 101, 114], kerberosNT⟩ ∧
      (Name.name_type s2 h0).map (fun p => p.2)
        = (Name.name_type s0 h0).map (fun p => p.2) ∧
      (Name.bytes_ s2 h0).map (fun p => p.2)
        = (Name.bytes_ s0 h0).map (fun p => p.2) :=
  C6_canonicalize_fresh s0 h0 ⟨[117, 115, 101, 114], kerberosNT⟩ 1 rfl rfl

/-- C7: both copy and deep-copy call the underlying duplication primitive
(the duplication call is logged), produce a handle distinct from the
original (never a shallow reference to the same raw handle), and each copy
compares equal to the original under the comparison primitive. -/
theorem C7_copy_duplicates (s : RawState) (h : Name) (r : RawName)
    (memo : Nat) (hl : s.lookup h.raw = some r) :
    ∃ s2 h2 s3 h3,
      Name.copy s h = .ok (s2, h2) ∧
      h2.raw ≠ h.raw ∧
      (compareName s2 h2.raw h.raw).2 = true ∧
      s2.log = s.log ++ [RawCall.duplicateCall h.raw] ∧
      Name.deepcopy s h memo = .ok (s3, h3) ∧
      h3.raw ≠ h.raw ∧
      (compareName s3 h3.raw h.raw).2 = true ∧
      s3.log = s.log ++ [RawCall.duplicateCall h.raw] := by
  have hfresh : RawState.lookup ⟨s.heap ++ [r],
      s.log ++ [RawCall.duplicateCall h.raw]⟩ s.heap.length = some r :=
    lookup_concat_fresh s r _
  have hold : RawState.lookup ⟨s.heap ++ [r],
      s.log ++ [RawCall.duplicateCall h.raw]⟩ h.raw = some r :=
    lookup_concat _ _ hl
  refine ⟨⟨s.heap ++ [r], s.log ++ [RawCall.duplicateCall h.raw]⟩,
    ⟨s.heap.length⟩, ⟨s.heap ++ [r], s.log ++ [RawCall.duplicateCall h.raw]⟩,
    ⟨s.heap.length⟩, ?_, Ne.symm (Nat.ne_of_lt (lookup_lt hl)), ?_, rfl,
    ?_, Ne.symm (Nat.ne_of_lt (lookup_lt hl)), ?_, rfl⟩
  · simp [Name.copy, duplicateName_ok hl, Except.bind, Name.new]
  · rw [compareName_val, hfresh, hold]
    simp
  · simp [Name.deepcopy, duplicateName_ok hl, Except.bind, Name.new]
  · rw [compareName_val, hfresh, hold]
    simp

/-- C7 witness: copying the concrete Kerberos principal of `s0`. -/
theorem C7_copy_duplicates_witness :
    ∃ s2 h2 s3 h3,
      Name.copy s0 h0 = .ok (s2, h2) ∧
      h2.raw ≠ h0.raw ∧
      (compareName s2 h2.raw h0.raw).2 = true ∧
      s2.log = s0.log ++ [RawCall.duplicateCall h0.raw] ∧
      Name.deepcopy s0 h0 0 = .ok (s3, h3) ∧
      h3.raw ≠ h0.raw ∧
      (compareName s3 h3.raw h0.raw).2 = true ∧
      s3.log = s0.log ++ [RawCall.duplicateCall h0.raw] :=
  C7_copy_duplicates s0 h0 ⟨[117, 115, 101, 114], kerberosNT⟩ 0 rfl

/-- C8: `__bytes__` is idempotent — a second conversion on the same handle,
run in the state the first conversion produced, returns the same bytes. -/
theorem C8_bytes_idempotent (s : RawState) (h : Name) (s1 : RawState)
    (b : Bytes) (h1 : Name.bytes_ s h = .ok (s1, b)) :
    ∃ s2, Name.bytes_ s1 h = .ok (s2, b) := by
  cases hls : s.lookup h.raw with
  | none =>
    rw [Name.bytes_] at h1
    unfold displayName at h1
    rw [hls] at h1
    simp [Except.map] at h1
  | some r =>
    rw [bytes_val hls] at h1
    simp only [Except.ok.injEq, Prod.mk.injEq] at h1
    obtain ⟨e1, e2⟩ := h1
    subst e1
    subst e2
    exact ⟨_, bytes_val (show (s.logged
      (RawCall.displayCall h.raw false)).lookup h.raw = some r from hls)⟩

/-- C8 witness: two successive byte conversions of the concrete principal
of `s0` return the same bytes. -/
theorem C8_bytes_idempotent_witness :
    ∃ s2, Name.bytes_ (s0.logged (RawCall.displayCall 0 false)) h0
      = .ok (s2, [117, 115, 101, 114]) :=
  C8_bytes_idempotent s0 h0 (s0.logged (RawCall.displayCall 0 false))
    [117, 115, 101, 114] rfl

/-- C10: the wrapper carries no instance state of its own, so every
operation is determined by the wrapped raw object `r`, the arguments and
the process-wide encoding, and leaves the receiver's raw object unchanged:
`name_type` re-queries the display primitive on every read (the display
call is logged) and returns `r`'s type, bytes/str/repr/export read `r`
without touching the heap, equality and inequality leave the heap
unchanged, canonicalize/copy/deep-copy only append a fresh object, and in
the appended heaps the receiver still dereferences to `r`. -/
theorem C10_stateless_observations (s : RawState) (h : Name) (r : RawName)
    (m : Nat) (memo : Nat) (cfg : Config) (py3 : Bool) (other : PyVal)
    (hl : s.lookup h.raw = some r) (hm : supportedMech m = true)
    (he : exportSupported r.name_type = true) :
    Name.name_type s h
      = .ok (s.logged (RawCall.displayCall h.raw true), r.name_type) ∧
    Name.bytes_ s h
      = .ok (s.logged (RawCall.displayCall h.raw false), r.name) ∧
    Name.str py3 cfg s h = .ok (s.logged (RawCall.displayCall h.raw false),
      if py3 then .text (decodeBytes cfg.encoding r.name) else .bs r.name) ∧
    Name.repr s h = .ok (s.logged (RawCall.displayCall h.raw true),
      "Name(" ++ String.mk (r.name.map Char.ofNat) ++ ", " ++
        toString r.name_type ++ ")") ∧
    (Name.eq s h other).1.heap = s.heap ∧
    (Name.ne s h other).1.heap = s.heap ∧
    Name.export_ s h
      = .ok (s.logged (RawCall.exportCall h.raw), r.name_type :: r.name) ∧
    Name.canonicalize s h m = .ok (⟨s.heap ++ [⟨r.name, mechCanonNT m⟩],
      s.log ++ [RawCall.canonicalizeCall h.raw m]⟩, ⟨s.heap.length⟩) ∧
    Name.copy s h = .ok (⟨s.heap ++ [r],
      s.log ++ [RawCall.duplicateCall h.raw]⟩, ⟨s.heap.length⟩) ∧
    Name.deepcopy s h memo = .ok (⟨s.heap ++ [r],
      s.log ++ [RawCall.duplicateCall h.raw]⟩, ⟨s.heap.length⟩) ∧
    RawState.lookup ⟨s.heap ++ [⟨r.name, mechCanonNT m⟩],
      s.log ++ [RawCall.canonicalizeCall h.raw m]⟩ h.raw = some r ∧
    RawState.lookup ⟨s.heap ++ [r],
      s.log ++ [RawCall.duplicateCall h.raw]⟩ h.raw = some r := by
  refine ⟨name_type_val hl, bytes_val hl, ?_, ?_, ?_, ?_, exportName_ok hl he,
    ?_, ?_, ?_, lookup_concat _ _ hl, lookup_concat _ _ hl⟩
  · simp [Name.str, bytes_val hl, Except.map]
  · simp [Name.repr, displayName_ok hl, Except.map]
  · cases other <;> rfl
  · cases other <;> rfl
  · simp [Name.canonicalize, canonicalizeName_ok hl hm, Except.bind, Name.new]
  · simp [Name.copy, duplicateName_ok hl, Except.bind, Name.new]
  · simp [Name.deepcopy, duplicateName_ok hl, Except.bind, Name.new]

/-- C10 witness: all observations at the concrete Kerberos principal of
`s0`, with a non-name comparison argument, the supported mechanism, and
the Python-3 text path. -/
theorem C10_stateless_observations_witness :
    Name.name_type s0 h0
      = .ok (s0.logged (RawCall.displayCall h0.raw true), kerberosNT) ∧
    Name.bytes_ s0 h0
      = .ok (s0.logged (RawCall.displayCall h0.raw false),
          [117, 115, 101, 114]) ∧
    Name.str true utf8 s0 h0
      = .ok (s0.logged (RawCall.displayCall h0.raw false),
        if true then
          .text (decodeBytes utf8.encoding [117, 115, 101, 114])
        else .bs [117, 115, 101, 114]) ∧
    Name.repr s0 h0 = .ok (s0.logged (RawCall.displayCall h0.raw true),
      "Name(" ++ String.mk ([117, 115, 101, 114].map Char.ofNat) ++ ", " ++
        toString kerberosNT ++ ")") ∧
    (Name.eq s0 h0 (.other 7)).1.heap = s0.heap ∧
    (Name.ne s0 h0 (.other 7)).1.heap = s0.heap ∧
    Name.export_ s0 h0
      = .ok (s0.logged (RawCall.exportCall h0.raw),
          kerberosNT :: [117, 115, 101, 114]) ∧
    Name.canonicalize s0 h0 1
      = .ok (⟨s0.heap ++ [⟨[117, 115, 101, 114], mechCanonNT 1⟩],
          s0.log ++ [RawCall.canonicalizeCall h0.raw 1]⟩, ⟨s0.heap.length⟩) ∧
    Name.copy s0 h0 = .ok (⟨s0.heap ++ [⟨[117, 115, 101, 114], kerberosNT⟩],
      s0.log ++ [RawCall.duplicateCall h0.raw]⟩, ⟨s0.heap.length⟩) ∧
    Name.deepcopy s0 h0 9
      = .ok (⟨s0.heap ++ [⟨[117, 115, 101, 114], kerberosNT⟩],
          s0.log ++ [RawCall.duplicateCall h0.raw]⟩, ⟨s0.heap.length⟩) ∧
    RawState.lookup ⟨s0.heap ++ [⟨[117, 115, 101, 114], mechCanonNT 1⟩],
      s0.log ++ [RawCall.canonicalizeCall h0.raw 1]⟩ h0.raw
      = some ⟨[117, 115, 101, 114], kerberosNT⟩ ∧
    RawState.lookup ⟨s0.heap ++ [⟨[117, 115, 101, 114], kerberosNT⟩],
      s0.log ++ [RawCall.duplicateCall h0.raw]⟩ h0.raw
      = some ⟨[117, 115, 101, 114], kerberosNT⟩ :=
  C10_stateless_observations s0 h0 ⟨[117, 115, 101, 114], kerberosNT⟩ 1 9
    utf8 true (.other 7) rfl rfl rfl

end Gssapi
